/-
  Verification development for the guest-boot construction and I/O-port
  dispatch subsystem of seL4_projects_libs (libsel4vmmplatsupport).

  The definitions below are a shallow embedding of
    src/libsel4vmmplatsupport/src/arch/x86/guest_boot_init.c
  and of the I/O-port dispatcher whose types are declared in
    src/libsel4vmmplatsupport/include/sel4vmmplatsupport/ioports.h.

  Machine integers are modelled as Nat with explicit reduction modulo 2^64
  (the C `uint64_t` arithmetic of `struct e820entry`) or 2^32 (explicit
  `(unsigned int)` casts) exactly where the C code can wrap.
-/
import Mathlib

/-- Unsigned 64-bit addition: `a + b` as computed on `uint64_t`. -/
def add64 (a b : Nat) : Nat := (a + b) % 2 ^ 64

/-- Unsigned 64-bit subtraction: `a - b` as computed on `uint64_t`
(two's-complement wraparound). -/
def sub64 (a b : Nat) : Nat := (a + (2 ^ 64 - b % 2 ^ 64)) % 2 ^ 64

theorem add64_eq (a b : Nat) (h : a + b < 2 ^ 64) : add64 a b = a + b :=
  Nat.mod_eq_of_lt h

theorem sub64_eq (a b : Nat) (hba : b ≤ a) (ha : a < 2 ^ 64) : sub64 a b = a - b := by
  unfold sub64
  have hb : b % 2 ^ 64 = b := Nat.mod_eq_of_lt (lt_of_le_of_lt hba ha)
  rw [hb]
  have h1 : a + (2 ^ 64 - b) = (a - b) + 2 ^ 64 := by omega
  rw [h1, Nat.add_mod_right]
  exact Nat.mod_eq_of_lt (by omega)

/-- E820 entry types used by `make_guest_e820_map` (`E820_RAM` and
`E820_RESERVED` from e820.h). -/
inductive e820_type where
  | ram
  | reserved
deriving DecidableEq, Repr

/-- One entry of the guest E820 map: `struct e820entry { u64 addr; u64 size; u32 type; }`. -/
structure e820entry where
  addr : Nat
  size : Nat
  type : e820_type
deriving DecidableEq, Repr

/-- A guest RAM region as read by `make_guest_e820_map` from
`vm_mem_t::ram_regions` (only the `start` and `size` fields are read). -/
structure vm_ram_region where
  start : Nat
  size : Nat
deriving DecidableEq, Repr

/-- State of the e820-construction loop: the entries `e820[0 .. entry-1]`
already closed, plus the entry `e820[entry]` currently being built. -/
structure E820St where
  closed : List e820entry
  cur : e820entry
deriving DecidableEq, Repr

/-- Initial loop state of `make_guest_e820_map` (guest_boot_init.c lines
151-155): `entry = 0`, `e820[0] = { .addr = 0, .size = 0, .type = E820_RESERVED }`. -/
def e820Init : E820St := ⟨[], ⟨0, 0, e820_type.reserved⟩⟩

/-- One iteration of the loop of `make_guest_e820_map` (guest_boot_init.c
lines 157-179) processing one RAM region.  All address arithmetic is the
C `uint64_t` arithmetic of `struct e820entry`. -/
def e820Step (st : E820St) (r : vm_ram_region) : E820St :=
  let st1 :=
    if add64 st.cur.addr st.cur.size ≠ r.start then
      -- discontinuity (line 161)
      let st2 :=
        if st.cur.size ≠ 0 then
          -- finish the current region (lines 163-168)
          E820St.mk (st.closed ++ [st.cur])
            (e820entry.mk (add64 st.cur.addr st.cur.size) 0 e820_type.reserved)
        else st
      -- pad region (line 170), then start a new RAM region (lines 172-175)
      let pad := e820entry.mk st2.cur.addr (sub64 r.start st2.cur.addr) st2.cur.type
      E820St.mk (st2.closed ++ [pad]) (e820entry.mk r.start 0 e820_type.ram)
    else st
  -- increase region to size (line 178)
  E820St.mk st1.closed
    (e820entry.mk st1.cur.addr (add64 (sub64 r.start st1.cur.addr) r.size) st1.cur.type)

/-- The E820 map produced by `make_guest_e820_map` (guest_boot_init.c lines
149-193): the loop over all RAM regions, then the final synthetic
RESERVED entry up to `0x100000000` (lines 180-185).  The function's C
return value is the length of this list.  (The `E820MAX` capacity assert
is not modelled; none of the claims concerns the capacity bound.) -/
def make_guest_e820_map (regions : List vm_ram_region) : List e820entry :=
  let st := regions.foldl e820Step e820Init
  let finAddr := add64 st.cur.addr st.cur.size
  st.closed ++ [st.cur, e820entry.mk finAddr (sub64 0x100000000 finAddr) e820_type.reserved]

/-- The assertion checked for every emitted entry at guest_boot_init.c line
190: `assert(e820[i].addr < e820[i].addr + e820[i].size)`, with the
addition performed on `uint64_t`. -/
def e820_assert_ok (es : List e820entry) : Prop :=
  ∀ e ∈ es, e.addr < add64 e.addr e.size

instance (es : List e820entry) : Decidable (e820_assert_ok es) :=
  List.decidableBAll _ es

-- Sanity anchor: the spec's worked example (spec.md section 8): one 1 MiB RAM
-- region starting at 1 MiB yields RESERVED [0,1MiB), RAM [1MiB,2MiB),
-- RESERVED [2MiB, 4GiB).
example :
    make_guest_e820_map [⟨0x100000, 0x100000⟩] =
      [⟨0, 0x100000, e820_type.reserved⟩,
       ⟨0x100000, 0x100000, e820_type.ram⟩,
       ⟨0x200000, 0x100000000 - 0x200000, e820_type.reserved⟩] := by
  decide

-- Characterisations of one loop iteration, by which branch of the
-- discontinuity test is taken.

/-- Loop iteration when the region is contiguous with the current entry
(the test at line 161 is false): only the current entry's size grows. -/
theorem e820Step_merge (st : E820St) (r : vm_ram_region)
    (h : add64 st.cur.addr st.cur.size = r.start) :
    e820Step st r =
      ⟨st.closed, ⟨st.cur.addr, add64 (sub64 r.start st.cur.addr) r.size, st.cur.type⟩⟩ := by
  unfold e820Step
  simp [h]

/-- Loop iteration on a discontinuity with a non-empty current entry: the
current entry is closed, a RESERVED pad entry is closed behind it, and a
fresh RAM entry is opened for the region. -/
theorem e820Step_discont_close (st : E820St) (r : vm_ram_region)
    (h1 : add64 st.cur.addr st.cur.size ≠ r.start) (h2 : st.cur.size ≠ 0) :
    e820Step st r =
      ⟨st.closed ++
        [st.cur,
         ⟨add64 st.cur.addr st.cur.size, sub64 r.start (add64 st.cur.addr st.cur.size),
          e820_type.reserved⟩],
       ⟨r.start, add64 (sub64 r.start r.start) r.size, e820_type.ram⟩⟩ := by
  unfold e820Step
  simp [h1, h2]

/-- Loop iteration on a discontinuity with a zero-sized current entry: the
current entry is padded in place up to the region start and closed, and a
fresh RAM entry is opened for the region. -/
theorem e820Step_discont_nocl (st : E820St) (r : vm_ram_region)
    (h1 : add64 st.cur.addr st.cur.size ≠ r.start) (h2 : st.cur.size = 0) :
    e820Step st r =
      ⟨st.closed ++ [⟨st.cur.addr, sub64 r.start st.cur.addr, st.cur.type⟩],
       ⟨r.start, add64 (sub64 r.start r.start) r.size, e820_type.ram⟩⟩ := by
  unfold e820Step
  rw [h2] at h1
  simp [h1, h2]

-- Contiguity machinery for E820 entry lists.

/-- The end address reached after laying out the entries of `es`, starting
from address `n`. -/
def listEnd (n : Nat) : List e820entry → Nat
  | [] => n
  | e :: es => listEnd (e.addr + e.size) es

/-- The entries of `es` are contiguous starting at address `n`: each entry
begins exactly where the previous one ended. -/
def contigFrom (n : Nat) : List e820entry → Prop
  | [] => True
  | e :: es => e.addr = n ∧ contigFrom (e.addr + e.size) es

theorem listEnd_append (n : Nat) (xs ys : List e820entry) :
    listEnd n (xs ++ ys) = listEnd (listEnd n xs) ys := by
  induction xs generalizing n with
  | nil => rfl
  | cons e es ih => simp [listEnd, ih]

theorem contigFrom_append (n : Nat) (xs ys : List e820entry) :
    contigFrom n (xs ++ ys) ↔ contigFrom n xs ∧ contigFrom (listEnd n xs) ys := by
  induction xs generalizing n with
  | nil => simp [contigFrom, listEnd]
  | cons e es ih => simp [contigFrom, listEnd, ih, and_assoc]

theorem contigFrom_chain (n : Nat) (es : List e820entry) (h : contigFrom n es) :
    List.Chain' (fun a b => a.addr + a.size = b.addr) es := by
  induction es generalizing n with
  | nil => simp
  | cons e es ih =>
    obtain ⟨-, h2⟩ := h
    cases es with
    | nil => simp
    | cons f fs =>
      rw [List.chain'_cons]
      exact ⟨h2.1.symm, ih _ h2⟩

theorem contigFrom_cover (es : List e820entry) : ∀ (n a : Nat), contigFrom n es →
    n ≤ a → a < listEnd n es → ∃ e ∈ es, e.addr ≤ a ∧ a < e.addr + e.size := by
  induction es with
  | nil =>
    intro n a _ h1 h2
    exfalso
    simp [listEnd] at h2
    omega
  | cons e es ih =>
    intro n a hc h1 h2
    obtain ⟨he, hc2⟩ := hc
    by_cases hlt : a < e.addr + e.size
    · exact ⟨e, List.mem_cons_self _ _, by omega, hlt⟩
    · simp only [listEnd] at h2
      obtain ⟨f, hf, h3, h4⟩ := ih (e.addr + e.size) a hc2 (by omega) h2
      exact ⟨f, List.mem_cons_of_mem _ hf, h3, h4⟩

/-- Admissibility of a region list relative to a running lower bound `b`:
the regions are sorted and non-overlapping (each starts no earlier than
the previous one ends, and no earlier than `b`) and each lies within the
first 4 GiB. -/
def Admissible (b : Nat) : List vm_ram_region → Prop
  | [] => True
  | r :: rs => b ≤ r.start ∧ r.start + r.size ≤ 2 ^ 32 ∧ Admissible (r.start + r.size) rs

theorem admissible_mk : ∀ (rs : List vm_ram_region) (b : Nat),
    List.Chain' (fun a c => a.start + a.size ≤ c.start) rs →
    (∀ r ∈ rs, r.start + r.size ≤ 2 ^ 32) →
    (∀ r ∈ rs.head?, b ≤ r.start) →
    Admissible b rs := by
  intro rs
  induction rs with
  | nil => intro b _ _ _; trivial
  | cons r rs ih =>
    intro b hch hb hhd
    refine ⟨hhd r rfl, hb r (List.mem_cons_self _ _), ?_⟩
    exact ih (r.start + r.size) hch.tail
      (fun x hx => hb x (List.mem_cons_of_mem _ hx))
      (fun x hx => (List.chain'_cons'.mp hch).1 x hx)

/-- Entry `e` records the RAM region `r`: it is a RAM-typed entry whose
address range contains the region's address range. -/
def covers (e : e820entry) (r : vm_ram_region) : Prop :=
  e.type = e820_type.ram ∧ e.addr ≤ r.start ∧ r.start + r.size ≤ e.addr + e.size

/-- The loop state records RAM region `r` in a closed entry or in the entry
currently under construction. -/
def RamCovered (st : E820St) (r : vm_ram_region) : Prop :=
  (∃ e ∈ st.closed, covers e r) ∨ covers st.cur r

/-- Loop invariant of `make_guest_e820_map` once the first region has been
processed: the closed entries are contiguous from address 0 up to the
current entry's address, everything lies below 4 GiB, and the current
entry is RAM-typed. -/
structure InvC1 (st : E820St) : Prop where
  contig : contigFrom 0 st.closed
  link : listEnd 0 st.closed = st.cur.addr
  bAll : ∀ e ∈ st.closed, e.addr + e.size ≤ 2 ^ 32
  bCur : st.cur.addr + st.cur.size ≤ 2 ^ 32
  curRam : st.cur.type = e820_type.ram

/-- One loop iteration preserves the invariant, sets the current entry's end
to the region's end, preserves previously recorded RAM regions, and
records the new region. -/
theorem e820Step_spec (st : E820St) (r : vm_ram_region)
    (hInv : InvC1 st)
    (hle : st.cur.addr + st.cur.size ≤ r.start)
    (hb : r.start + r.size ≤ 2 ^ 32) :
    InvC1 (e820Step st r) ∧
    (e820Step st r).cur.addr + (e820Step st r).cur.size = r.start + r.size ∧
    (∀ x, RamCovered st x → RamCovered (e820Step st r) x) ∧
    RamCovered (e820Step st r) r := by
  have hcurlt : st.cur.addr + st.cur.size < 2 ^ 64 :=
    lt_of_le_of_lt hInv.bCur (by norm_num)
  have hrlt : r.start + r.size < 2 ^ 64 := lt_of_le_of_lt hb (by norm_num)
  have haddcur : add64 st.cur.addr st.cur.size = st.cur.addr + st.cur.size :=
    add64_eq _ _ hcurlt
  have hnewsize : add64 (sub64 r.start r.start) r.size = r.size := by
    rw [sub64_eq r.start r.start le_rfl (by omega), Nat.sub_self,
      add64_eq 0 r.size (by omega), Nat.zero_add]
  by_cases hdis : st.cur.addr + st.cur.size = r.start
  · -- no discontinuity: the region is merged into the current entry
    have hm : add64 st.cur.addr st.cur.size = r.start := by rw [haddcur]; exact hdis
    rw [e820Step_merge st r hm]
    have hsub : sub64 r.start st.cur.addr = r.start - st.cur.addr :=
      sub64_eq _ _ (by omega) (by omega)
    have hadd : add64 (r.start - st.cur.addr) r.size = r.start - st.cur.addr + r.size :=
      add64_eq _ _ (by omega)
    rw [hsub, hadd]
    refine ⟨⟨hInv.contig, hInv.link, hInv.bAll, by dsimp only; omega, hInv.curRam⟩,
      by dsimp only; omega, ?_, ?_⟩
    · intro x hx
      rcases hx with ⟨e, he, hc⟩ | hc
      · exact Or.inl ⟨e, he, hc⟩
      · obtain ⟨hc1, hc2, hc3⟩ := hc
        exact Or.inr ⟨hc1, hc2, by dsimp only; omega⟩
    · exact Or.inr ⟨hInv.curRam, by dsimp only; omega, by dsimp only; omega⟩
  · -- discontinuity
    have hne : add64 st.cur.addr st.cur.size ≠ r.start := by rw [haddcur]; exact hdis
    by_cases h2 : st.cur.size = 0
    · -- the current entry is still empty: pad it in place
      rw [e820Step_discont_nocl st r hne h2]
      have hsub : sub64 r.start st.cur.addr = r.start - st.cur.addr :=
        sub64_eq _ _ (by omega) (by omega)
      rw [hsub, hnewsize]
      refine ⟨⟨?_, ?_, ?_, hb, rfl⟩, rfl, ?_, ?_⟩
      · rw [contigFrom_append]
        simp only [contigFrom, and_true]
        exact ⟨hInv.contig, hInv.link.symm⟩
      · rw [listEnd_append]
        simp only [listEnd]
        omega
      · intro e he
        rcases List.mem_append.mp he with h | h
        · exact hInv.bAll e h
        · rcases List.mem_singleton.mp h with rfl
          dsimp only
          omega
      · intro x hx
        rcases hx with ⟨e, he, hc⟩ | hc
        · exact Or.inl ⟨e, List.mem_append_left _ he, hc⟩
        · obtain ⟨hc1, hc2, hc3⟩ := hc
          refine Or.inl ⟨_, List.mem_append_right _ (List.mem_singleton.mpr rfl), hc1, hc2, ?_⟩
          dsimp only
          omega
      · exact Or.inr ⟨rfl, le_rfl, by dsimp only; omega⟩
    · -- close the current entry, emit a RESERVED pad entry
      rw [e820Step_discont_close st r hne h2]
      rw [haddcur]
      have hsub : sub64 r.start (st.cur.addr + st.cur.size) =
          r.start - (st.cur.addr + st.cur.size) :=
        sub64_eq _ _ hle (by omega)
      rw [hsub, hnewsize]
      refine ⟨⟨?_, ?_, ?_, hb, rfl⟩, rfl, ?_, ?_⟩
      · rw [contigFrom_append]
        simp only [contigFrom, and_true]
        exact ⟨hInv.contig, hInv.link.symm⟩
      · rw [listEnd_append]
        simp only [listEnd]
        omega
      · intro e he
        rcases List.mem_append.mp he with h | h
        · exact hInv.bAll e h
        · rcases List.mem_cons.mp h with rfl | h
          · exact hInv.bCur
          · rcases List.mem_singleton.mp h with rfl
            dsimp only
            omega
      · intro x hx
        rcases hx with ⟨e, he, hc⟩ | hc
        · exact Or.inl ⟨e, List.mem_append_left _ he, hc⟩
        · exact Or.inl ⟨st.cur, List.mem_append_right _ (List.mem_cons_self _ _), hc⟩
      · exact Or.inr ⟨rfl, le_rfl, by dsimp only; omega⟩

/-- The loop of `make_guest_e820_map` preserves the invariant and records
every region it processes. -/
theorem e820_fold_spec : ∀ (rs : List vm_ram_region) (st : E820St),
    InvC1 st → Admissible (st.cur.addr + st.cur.size) rs →
    InvC1 (rs.foldl e820Step st) ∧
    (∀ x, RamCovered st x → RamCovered (rs.foldl e820Step st) x) ∧
    (∀ r ∈ rs, RamCovered (rs.foldl e820Step st) r) := by
  intro rs
  induction rs with
  | nil => exact fun st hInv _ => ⟨hInv, fun x h => h, by simp⟩
  | cons r rs ih =>
    intro st hInv ha
    obtain ⟨ha1, ha2, ha3⟩ := ha
    obtain ⟨hI, hEnd, hPres, hCov⟩ := e820Step_spec st r hInv ha1 ha2
    have ha3' : Admissible ((e820Step st r).cur.addr + (e820Step st r).cur.size) rs := by
      rw [hEnd]; exact ha3
    obtain ⟨hI', hPres', hCov'⟩ := ih (e820Step st r) hI ha3'
    rw [List.foldl_cons]
    refine ⟨hI', fun x hx => hPres' x (hPres x hx), ?_⟩
    intro x hx
    rcases List.mem_cons.mp hx with rfl | h
    · exact hPres' x hCov
    · exact hCov' x h

/-- The first loop iteration, when the first RAM region starts above 0:
the initial zero-sized RESERVED entry is padded up to the region start and
closed, and a RAM entry is opened for the region. -/
theorem e820_first_step (r : vm_ram_region) (h0 : r.start ≠ 0)
    (hb : r.start + r.size ≤ 2 ^ 32) :
    e820Step e820Init r =
      ⟨[⟨0, r.start, e820_type.reserved⟩], ⟨r.start, r.size, e820_type.ram⟩⟩ := by
  have h1 : add64 e820Init.cur.addr e820Init.cur.size ≠ r.start := by
    simp only [e820Init]
    rw [add64_eq 0 0 (by norm_num)]
    omega
  rw [e820Step_discont_nocl e820Init r h1 rfl]
  have hs0 : sub64 r.start 0 = r.start := by
    rw [sub64_eq r.start 0 (Nat.zero_le _) (by omega), Nat.sub_zero]
  have hss : add64 (sub64 r.start r.start) r.size = r.size := by
    rw [sub64_eq r.start r.start le_rfl (by omega), Nat.sub_self,
      add64_eq 0 r.size (by omega), Nat.zero_add]
  simp [e820Init, hs0, hss]

/-- C1 (amended).  For a non-empty, sorted, non-overlapping guest RAM region
list whose regions lie within the first 4 GiB and whose first region does
not start at address 0, the E820 map produced by `make_guest_e820_map`
has entries sorted by address, non-overlapping and gap-free (each entry
begins exactly where the previous one ends), confined to addresses below
2^32, covering every address in [0, 2^32), and every listed RAM region is
contained in an E820_RAM-typed entry. -/
theorem make_guest_e820_map_correct (r0 : vm_ram_region) (rest : List vm_ram_region)
    (hsorted : List.Chain' (fun a b => a.start + a.size ≤ b.start) (r0 :: rest))
    (hbound : ∀ r ∈ r0 :: rest, r.start + r.size ≤ 2 ^ 32)
    (h0 : r0.start ≠ 0) :
    List.Chain' (fun a b => a.addr ≤ b.addr) (make_guest_e820_map (r0 :: rest)) ∧
    List.Chain' (fun a b => a.addr + a.size = b.addr) (make_guest_e820_map (r0 :: rest)) ∧
    (∀ e ∈ make_guest_e820_map (r0 :: rest), e.addr + e.size ≤ 2 ^ 32) ∧
    (∀ a, a < 2 ^ 32 →
      ∃ e ∈ make_guest_e820_map (r0 :: rest), e.addr ≤ a ∧ a < e.addr + e.size) ∧
    (∀ r ∈ r0 :: rest, ∃ e ∈ make_guest_e820_map (r0 :: rest),
      e.type = e820_type.ram ∧ e.addr ≤ r.start ∧ r.start + r.size ≤ e.addr + e.size) := by
  have hb0 : r0.start + r0.size ≤ 2 ^ 32 := hbound r0 (List.mem_cons_self _ _)
  have hfs := e820_first_step r0 h0 hb0
  have hInv1 : InvC1 (e820Step e820Init r0) := by
    rw [hfs]
    refine ⟨⟨rfl, trivial⟩, by simp [listEnd], ?_, hb0, rfl⟩
    intro e he
    rcases List.mem_singleton.mp he with rfl
    dsimp only
    omega
  have hCov1 : RamCovered (e820Step e820Init r0) r0 := by
    rw [hfs]
    exact Or.inr ⟨rfl, le_rfl, le_rfl⟩
  have hAdm : Admissible ((e820Step e820Init r0).cur.addr + (e820Step e820Init r0).cur.size)
      rest := by
    rw [hfs]
    exact admissible_mk rest (r0.start + r0.size) hsorted.tail
      (fun x hx => hbound x (List.mem_cons_of_mem _ hx))
      (fun x hx => (List.chain'_cons'.mp hsorted).1 x hx)
  obtain ⟨hI, hPres, hCov⟩ := e820_fold_spec rest (e820Step e820Init r0) hInv1 hAdm
  have hcurlt : (rest.foldl e820Step (e820Step e820Init r0)).cur.addr +
      (rest.foldl e820Step (e820Step e820Init r0)).cur.size < 2 ^ 64 :=
    lt_of_le_of_lt hI.bCur (by norm_num)
  have hunf : make_guest_e820_map (r0 :: rest) =
      (rest.foldl e820Step (e820Step e820Init r0)).closed ++
        [(rest.foldl e820Step (e820Step e820Init r0)).cur,
         ⟨(rest.foldl e820Step (e820Step e820Init r0)).cur.addr +
            (rest.foldl e820Step (e820Step e820Init r0)).cur.size,
          2 ^ 32 - ((rest.foldl e820Step (e820Step e820Init r0)).cur.addr +
            (rest.foldl e820Step (e820Step e820Init r0)).cur.size),
          e820_type.reserved⟩] := by
    simp only [make_guest_e820_map, List.foldl_cons]
    rw [add64_eq _ _ hcurlt]
    rw [sub64_eq 0x100000000 _ (by have := hI.bCur; omega) (by norm_num)]
    norm_num
  have hcontig : contigFrom 0 (make_guest_e820_map (r0 :: rest)) := by
    rw [hunf, contigFrom_append]
    simp only [contigFrom, and_true]
    exact ⟨hI.contig, hI.link.symm⟩
  have hlistEnd : listEnd 0 (make_guest_e820_map (r0 :: rest)) = 2 ^ 32 := by
    rw [hunf, listEnd_append]
    simp only [listEnd]
    have := hI.bCur
    omega
  refine ⟨?_, contigFrom_chain 0 _ hcontig, ?_, ?_, ?_⟩
  · exact (contigFrom_chain 0 _ hcontig).imp (fun h => by omega)
  · intro e he
    rw [hunf] at he
    rcases List.mem_append.mp he with h | h
    · exact hI.bAll e h
    · rcases List.mem_cons.mp h with rfl | h
      · exact hI.bCur
      · rcases List.mem_singleton.mp h with rfl
        dsimp only
        have := hI.bCur
        omega
  · intro a ha
    exact contigFrom_cover _ 0 a hcontig (Nat.zero_le _) (by rw [hlistEnd]; exact ha)
  · intro r hr
    have hrc : RamCovered (rest.foldl e820Step (e820Step e820Init r0)) r := by
      rcases List.mem_cons.mp hr with rfl | h
      · exact hPres r hCov1
      · exact hCov r h
    rcases hrc with ⟨e, he, hc⟩ | hc
    · exact ⟨e, by rw [hunf]; exact List.mem_append_left _ he, hc⟩
    · refine ⟨(rest.foldl e820Step (e820Step e820Init r0)).cur, ?_, hc⟩
      rw [hunf]
      exact List.mem_append_right _ (List.mem_cons_self _ _)

/-- Counterexample to C1 as stated: the single RAM region starting at
address 0 satisfies the claim's hypotheses (non-empty, sorted,
non-overlapping), yet the produced map contains no E820_RAM entry at all —
the region is absorbed into the initial RESERVED entry (line 161 compares
the region start against the initial entry `{0,0}` and finds no
discontinuity), so the RAM-coverage conjunct of the claim fails. -/
theorem make_guest_e820_map_ram_at_zero_cex :
    ([(⟨0, 0x1000⟩ : vm_ram_region)] ≠ []) ∧
    List.Chain' (fun a b => a.start + a.size ≤ b.start) [(⟨0, 0x1000⟩ : vm_ram_region)] ∧
    (∀ r ∈ [(⟨0, 0x1000⟩ : vm_ram_region)], r.start + r.size ≤ 2 ^ 32) ∧
    make_guest_e820_map [(⟨0, 0x1000⟩ : vm_ram_region)] =
      [⟨0, 0x1000, e820_type.reserved⟩,
       ⟨0x1000, 0x100000000 - 0x1000, e820_type.reserved⟩] ∧
    ¬ (∃ e ∈ make_guest_e820_map [(⟨0, 0x1000⟩ : vm_ram_region)],
        e.type = e820_type.ram ∧ e.addr ≤ 0 ∧ 0 + 0x1000 ≤ e.addr + e.size) := by
  refine ⟨by decide, by simp, by decide, by decide, by decide⟩

/-- Witness for the amended C1 theorem at the spec's own worked example:
one 1 MiB region at 1 MiB satisfies all hypotheses, and the produced map
covers all of [0, 2^32). -/
theorem make_guest_e820_map_correct_witness :
    (List.Chain' (fun a b => a.start + a.size ≤ b.start)
        [(⟨0x100000, 0x100000⟩ : vm_ram_region)] ∧
     (∀ r ∈ [(⟨0x100000, 0x100000⟩ : vm_ram_region)], r.start + r.size ≤ 2 ^ 32) ∧
     (⟨0x100000, 0x100000⟩ : vm_ram_region).start ≠ 0) ∧
    (∀ a, a < 2 ^ 32 →
      ∃ e ∈ make_guest_e820_map [(⟨0x100000, 0x100000⟩ : vm_ram_region)],
        e.addr ≤ a ∧ a < e.addr + e.size) ∧
    (∀ r ∈ [(⟨0x100000, 0x100000⟩ : vm_ram_region)],
      ∃ e ∈ make_guest_e820_map [(⟨0x100000, 0x100000⟩ : vm_ram_region)],
        e.type = e820_type.ram ∧ e.addr ≤ r.start ∧ r.start + r.size ≤ e.addr + e.size) :=
  ⟨⟨by simp, by decide, by decide⟩,
   (make_guest_e820_map_correct ⟨0x100000, 0x100000⟩ [] (by simp) (by decide)
      (by decide)).2.2.2.1,
   (make_guest_e820_map_correct ⟨0x100000, 0x100000⟩ [] (by simp) (by decide)
      (by decide)).2.2.2.2⟩

-- Invariant machinery for C5 (all emitted entries non-empty).

/-- Loop invariant of `make_guest_e820_map` for the non-zero-length claim:
closed entries are bounded by 4 GiB and have non-zero size, and the
current entry ends strictly below 4 GiB. -/
structure InvC5 (st : E820St) : Prop where
  bAll : ∀ e ∈ st.closed, e.addr + e.size ≤ 2 ^ 32
  bCur : st.cur.addr + st.cur.size < 2 ^ 32
  closedPos : ∀ e ∈ st.closed, 0 < e.size

/-- One loop iteration preserves `InvC5` when the region has non-zero size
and ends strictly below 4 GiB, and leaves a non-empty current entry. -/
theorem e820Step_pos (st : E820St) (r : vm_ram_region)
    (hInv : InvC5 st)
    (hle : st.cur.addr + st.cur.size ≤ r.start)
    (hb : r.start + r.size < 2 ^ 32)
    (hr : 0 < r.size) :
    InvC5 (e820Step st r) ∧
    (e820Step st r).cur.addr + (e820Step st r).cur.size = r.start + r.size ∧
    0 < (e820Step st r).cur.size := by
  have hcurlt : st.cur.addr + st.cur.size < 2 ^ 64 :=
    lt_of_le_of_lt (le_of_lt hInv.bCur) (by norm_num)
  have haddcur : add64 st.cur.addr st.cur.size = st.cur.addr + st.cur.size :=
    add64_eq _ _ hcurlt
  have hnewsize : add64 (sub64 r.start r.start) r.size = r.size := by
    rw [sub64_eq r.start r.start le_rfl (by omega), Nat.sub_self,
      add64_eq 0 r.size (by omega), Nat.zero_add]
  by_cases hdis : st.cur.addr + st.cur.size = r.start
  · have hm : add64 st.cur.addr st.cur.size = r.start := by rw [haddcur]; exact hdis
    rw [e820Step_merge st r hm]
    have hsub : sub64 r.start st.cur.addr = r.start - st.cur.addr :=
      sub64_eq _ _ (by omega) (by omega)
    have hadd : add64 (r.start - st.cur.addr) r.size = r.start - st.cur.addr + r.size :=
      add64_eq _ _ (by omega)
    rw [hsub, hadd]
    exact ⟨⟨hInv.bAll, by dsimp only; omega, hInv.closedPos⟩,
      by dsimp only; omega, by dsimp only; omega⟩
  · have hne : add64 st.cur.addr st.cur.size ≠ r.start := by rw [haddcur]; exact hdis
    by_cases h2 : st.cur.size = 0
    · rw [e820Step_discont_nocl st r hne h2]
      have hsub : sub64 r.start st.cur.addr = r.start - st.cur.addr :=
        sub64_eq _ _ (by omega) (by omega)
      rw [hsub, hnewsize]
      refine ⟨⟨?_, by dsimp only; omega, ?_⟩, rfl, hr⟩
      · intro e he
        rcases List.mem_append.mp he with h | h
        · exact hInv.bAll e h
        · rcases List.mem_singleton.mp h with rfl
          dsimp only
          omega
      · intro e he
        rcases List.mem_append.mp he with h | h
        · exact hInv.closedPos e h
        · rcases List.mem_singleton.mp h with rfl
          dsimp only
          omega
    · rw [e820Step_discont_close st r hne h2]
      rw [haddcur]
      have hsub : sub64 r.start (st.cur.addr + st.cur.size) =
          r.start - (st.cur.addr + st.cur.size) :=
        sub64_eq _ _ hle (by omega)
      rw [hsub, hnewsize]
      refine ⟨⟨?_, by dsimp only; omega, ?_⟩, rfl, hr⟩
      · intro e he
        rcases List.mem_append.mp he with h | h
        · exact hInv.bAll e h
        · rcases List.mem_cons.mp h with rfl | h
          · exact le_of_lt hInv.bCur
          · rcases List.mem_singleton.mp h with rfl
            dsimp only
            omega
      · intro e he
        rcases List.mem_append.mp he with h | h
        · exact hInv.closedPos e h
        · rcases List.mem_cons.mp h with rfl | h
          · exact Nat.pos_of_ne_zero h2
          · rcases List.mem_singleton.mp h with rfl
            dsimp only
            omega

/-- The loop of `make_guest_e820_map` preserves `InvC5` over a list of
sorted, strictly-bounded, non-empty regions. -/
theorem e820_fold_pos : ∀ (rs : List vm_ram_region) (st : E820St),
    InvC5 st → Admissible (st.cur.addr + st.cur.size) rs →
    (∀ r ∈ rs, r.start + r.size < 2 ^ 32) → (∀ r ∈ rs, 0 < r.size) →
    InvC5 (rs.foldl e820Step st) ∧
    (rs ≠ [] → 0 < (rs.foldl e820Step st).cur.size) := by
  intro rs
  induction rs with
  | nil => exact fun st hInv _ _ _ => ⟨hInv, fun h => absurd rfl h⟩
  | cons r rs ih =>
    intro st hInv ha hb hp
    obtain ⟨ha1, ha2, ha3⟩ := ha
    obtain ⟨hI, hEnd, hpos⟩ := e820Step_pos st r hInv ha1
      (hb r (List.mem_cons_self _ _)) (hp r (List.mem_cons_self _ _))
    have ha3' : Admissible ((e820Step st r).cur.addr + (e820Step st r).cur.size) rs := by
      rw [hEnd]; exact ha3
    obtain ⟨hI', hpos'⟩ := ih (e820Step st r) hI ha3'
      (fun x hx => hb x (List.mem_cons_of_mem _ hx))
      (fun x hx => hp x (List.mem_cons_of_mem _ hx))
    rw [List.foldl_cons]
    refine ⟨hI', fun _ => ?_⟩
    cases rs with
    | nil => exact hpos
    | cons y ys => exact hpos' (by simp)

/-- C5 (amended).  For a non-empty, sorted, non-overlapping guest RAM region
list whose regions all have non-zero size and end strictly below 2^32,
every entry emitted by `make_guest_e820_map` (the final synthetic RESERVED
entry included) has non-zero length, so the assertion
`e820[i].addr < e820[i].addr + e820[i].size` at line 190 holds for every
emitted entry. -/
theorem make_guest_e820_map_entries_nonzero (r0 : vm_ram_region)
    (rest : List vm_ram_region)
    (hsorted : List.Chain' (fun a b => a.start + a.size ≤ b.start) (r0 :: rest))
    (hbound : ∀ r ∈ r0 :: rest, r.start + r.size < 2 ^ 32)
    (hpos : ∀ r ∈ r0 :: rest, 0 < r.size) :
    e820_assert_ok (make_guest_e820_map (r0 :: rest)) := by
  have hAdm : Admissible (e820Init.cur.addr + e820Init.cur.size) (r0 :: rest) := by
    refine admissible_mk (r0 :: rest) _ hsorted
      (fun r hr => le_of_lt (hbound r hr)) ?_
    intro r hr
    exact Nat.zero_le _
  have hInv0 : InvC5 e820Init :=
    ⟨fun e he => absurd he (List.not_mem_nil e), by norm_num [e820Init],
     fun e he => absurd he (List.not_mem_nil e)⟩
  obtain ⟨hI, hposc⟩ := e820_fold_pos (r0 :: rest) e820Init hInv0 hAdm hbound hpos
  have hcurpos : 0 < ((r0 :: rest).foldl e820Step e820Init).cur.size :=
    hposc (by simp)
  have hcurlt : ((r0 :: rest).foldl e820Step e820Init).cur.addr +
      ((r0 :: rest).foldl e820Step e820Init).cur.size < 2 ^ 64 :=
    lt_of_le_of_lt (le_of_lt hI.bCur) (by norm_num)
  have hunf : make_guest_e820_map (r0 :: rest) =
      ((r0 :: rest).foldl e820Step e820Init).closed ++
        [((r0 :: rest).foldl e820Step e820Init).cur,
         ⟨((r0 :: rest).foldl e820Step e820Init).cur.addr +
            ((r0 :: rest).foldl e820Step e820Init).cur.size,
          2 ^ 32 - (((r0 :: rest).foldl e820Step e820Init).cur.addr +
            ((r0 :: rest).foldl e820Step e820Init).cur.size),
          e820_type.reserved⟩] := by
    simp only [make_guest_e820_map]
    rw [add64_eq _ _ hcurlt]
    rw [sub64_eq 0x100000000 _ (by have := hI.bCur; omega) (by norm_num)]
    norm_num
  intro e he
  rw [hunf] at he
  rcases List.mem_append.mp he with h | h
  · have h1 := hI.bAll e h
    have h2 := hI.closedPos e h
    rw [add64_eq _ _ (by omega)]
    omega
  · rcases List.mem_cons.mp h with rfl | h
    · have := hI.bCur
      rw [add64_eq _ _ hcurlt]
      omega
    · rcases List.mem_singleton.mp h with rfl
      have := hI.bCur
      dsimp only
      rw [add64_eq _ _ (by omega)]
      omega

/-- Counterexample to C5 as stated: a single positive-size RAM region ending
exactly at 2^32 (its addresses all lie within [0, 2^32)) satisfies the
claim's hypotheses, yet the final synthetic RESERVED entry is
`{addr = 2^32, size = 0}` and the asserted inequality
`addr < addr + size` fails for it. -/
theorem make_guest_e820_map_assert_cex :
    ([(⟨0x1000, 0x100000000 - 0x1000⟩ : vm_ram_region)] ≠ []) ∧
    List.Chain' (fun a b => a.start + a.size ≤ b.start)
      [(⟨0x1000, 0x100000000 - 0x1000⟩ : vm_ram_region)] ∧
    (∀ r ∈ [(⟨0x1000, 0x100000000 - 0x1000⟩ : vm_ram_region)],
      0 < r.size ∧ r.start + r.size ≤ 2 ^ 32) ∧
    make_guest_e820_map [(⟨0x1000, 0x100000000 - 0x1000⟩ : vm_ram_region)] =
      [⟨0, 0x1000, e820_type.reserved⟩,
       ⟨0x1000, 0x100000000 - 0x1000, e820_type.ram⟩,
       ⟨0x100000000, 0, e820_type.reserved⟩] ∧
    ¬ e820_assert_ok (make_guest_e820_map
        [(⟨0x1000, 0x100000000 - 0x1000⟩ : vm_ram_region)]) :=
  ⟨by decide, by simp, by decide, by decide, by decide⟩

/-- Witness for the amended C5 theorem: on the spec's worked example every
emitted entry passes the line-190 assertion. -/
theorem make_guest_e820_map_entries_nonzero_witness :
    (List.Chain' (fun a b => a.start + a.size ≤ b.start)
        [(⟨0x100000, 0x100000⟩ : vm_ram_region)] ∧
     (∀ r ∈ [(⟨0x100000, 0x100000⟩ : vm_ram_region)], r.start + r.size < 2 ^ 32) ∧
     (∀ r ∈ [(⟨0x100000, 0x100000⟩ : vm_ram_region)], 0 < r.size)) ∧
    e820_assert_ok (make_guest_e820_map [(⟨0x100000, 0x100000⟩ : vm_ram_region)]) :=
  ⟨⟨by simp, by decide, by decide⟩,
   make_guest_e820_map_entries_nonzero ⟨0x100000, 0x100000⟩ [] (by simp) (by decide)
     (by decide)⟩

-- Screen info construction (make_guest_screen_info, guest_boot_init.c lines 80-147).

/-- The fields of `seL4_VBEModeInfoBlock_t` read by the code (from its
`vbe_common`, `vbe12_part1`, `vbe12_part2` and `vbe20` sub-blocks). -/
structure seL4_VBEModeInfoBlock where
  bytesPerScanLine : Nat
  xRes : Nat
  yRes : Nat
  bitsPerPixel : Nat
  planes : Nat
  redLen : Nat
  redOff : Nat
  greenLen : Nat
  greenOff : Nat
  blueLen : Nat
  blueOff : Nat
  rsvdLen : Nat
  rsvdOff : Nat
  physBasePtr : Nat
deriving DecidableEq, Repr

/-- The fields of `seL4_X86_BootInfo_VBE` read by the code. -/
structure seL4_X86_BootInfo_VBE where
  vbeInterfaceSeg : Nat
  vbeInterfaceOff : Nat
  vbeInterfaceLen : Nat
  vbeModeInfoBlock : seL4_VBEModeInfoBlock
deriving DecidableEq, Repr

/-- The `ALIGN_UP(x, n)` macro for positive `n` (the code only uses it with
the power of two 65536). -/
def ALIGN_UP (x n : Nat) : Nat := ((x + n - 1) / n) * n

/-- Framebuffer size computed by `vmm_plat_vesa_fbuffer_size`
(guest_boot_init.c lines 53-57). -/
def vmm_plat_vesa_fbuffer_size (block : seL4_VBEModeInfoBlock) : Nat :=
  ALIGN_UP (block.bytesPerScanLine * block.yRes) 65536

/-- The `struct screen_info` fields assigned by `make_guest_screen_info`
(lines 124-143), plus representative fields the function never assigns
(`orig_x`, `orig_y`, `orig_video_cols`, `ext_mem_k`). -/
structure screen_info where
  orig_x : Nat
  orig_y : Nat
  orig_video_cols : Nat
  ext_mem_k : Nat
  orig_video_isVGA : Nat
  lfb_width : Nat
  lfb_height : Nat
  lfb_depth : Nat
  lfb_base : Nat
  lfb_size : Nat
  lfb_linelength : Nat
  red_size : Nat
  red_pos : Nat
  green_size : Nat
  green_pos : Nat
  blue_size : Nat
  blue_pos : Nat
  rsvd_size : Nat
  rsvd_pos : Nat
  vesapm_seg : Nat
  vesapm_off : Nat
  pages : Nat
deriving DecidableEq, Repr

/-- The all-zero `struct screen_info` produced by
`memset(info, 0, sizeof(*info))` (line 145). -/
def zero_screen_info : screen_info :=
  ⟨0, 0, 0, 0, 0, 0, 0, 0, 0, 0, 0, 0, 0, 0, 0, 0, 0, 0, 0, 0, 0, 0⟩

/-- The field assignments of lines 124-143, applied to the prior contents
of the screen-info block. -/
def populate_screen_info (info : screen_info) (vbe : seL4_X86_BootInfo_VBE)
    (base fbuffer_size : Nat) : screen_info :=
  { info with
    orig_video_isVGA := 0x23
    lfb_width := vbe.vbeModeInfoBlock.xRes
    lfb_height := vbe.vbeModeInfoBlock.yRes
    lfb_depth := vbe.vbeModeInfoBlock.bitsPerPixel
    lfb_base := base
    lfb_size := fbuffer_size >>> 16
    lfb_linelength := vbe.vbeModeInfoBlock.bytesPerScanLine
    red_size := vbe.vbeModeInfoBlock.redLen
    red_pos := vbe.vbeModeInfoBlock.redOff
    green_size := vbe.vbeModeInfoBlock.greenLen
    green_pos := vbe.vbeModeInfoBlock.greenOff
    blue_size := vbe.vbeModeInfoBlock.blueLen
    blue_pos := vbe.vbeModeInfoBlock.blueOff
    rsvd_size := vbe.vbeModeInfoBlock.rsvdLen
    rsvd_pos := vbe.vbeModeInfoBlock.rsvdOff
    vesapm_seg := vbe.vbeInterfaceSeg
    vesapm_off := vbe.vbeInterfaceOff
    pages := vbe.vbeModeInfoBlock.planes }

/-- Outcomes of the external collaborator calls made by
`make_guest_screen_info`: the kernel-config flag, the extended-bootinfo
query (`none` models a `-1` result), the protected-mode interface
reservation and mapping, and the framebuffer reservation (carrying the
base address it writes) and mapping. -/
structure screen_env where
  config_vesa : Bool
  vbe_result : Option seL4_X86_BootInfo_VBE
  reserve_pm_ok : Bool
  map_pm_ok : Bool
  reserve_anon : Option Nat
  map_base_ok : Bool
deriving DecidableEq, Repr

/-- The result written to the screen-info block by `make_guest_screen_info`
(guest_boot_init.c lines 80-147), given the outcomes of its collaborator
calls.  `base` stays 0 on every failure path, making line 123 take the
`memset` branch (line 145). -/
def make_guest_screen_info (env : screen_env) (info : screen_info) : screen_info :=
  match env.config_vesa, env.vbe_result with
  | true, some vbe =>
    -- map the protected mode interface (lines 89-105)
    let pm_base := (vbe.vbeInterfaceSeg <<< 4) + vbe.vbeInterfaceOff
    let error : Bool :=
      if pm_base > 0xc000 then
        if env.reserve_pm_ok then !env.map_pm_ok else true
      else false
    if error then
      zero_screen_info
    else
      -- reserve and map the frame buffer (lines 109-120)
      let fbuffer_size := vmm_plat_vesa_fbuffer_size vbe.vbeModeInfoBlock
      match env.reserve_anon with
      | none => zero_screen_info
      | some base =>
        if env.map_base_ok then
          if base ≠ 0 then populate_screen_info info vbe base fbuffer_size
          else zero_screen_info
        else zero_screen_info
  | _, _ => zero_screen_info

/-- Characterisation of `make_guest_screen_info`: the resulting block is
either the all-zero block, or — exactly when VESA is configured, the
bootinfo query succeeded, no protected-mode-interface failure occurred,
and the framebuffer was reserved at a non-zero base and mapped — the
fully populated block. -/
theorem make_guest_screen_info_char (env : screen_env) (info : screen_info) :
    make_guest_screen_info env info = zero_screen_info ∨
    ∃ vbe base,
      env.config_vesa = true ∧ env.vbe_result = some vbe ∧
      env.reserve_anon = some base ∧ env.map_base_ok = true ∧ base ≠ 0 ∧
      ¬ ((vbe.vbeInterfaceSeg <<< 4) + vbe.vbeInterfaceOff > 0xc000 ∧
         (env.reserve_pm_ok = false ∨ env.map_pm_ok = false)) ∧
      make_guest_screen_info env info =
        populate_screen_info info vbe base
          (vmm_plat_vesa_fbuffer_size vbe.vbeModeInfoBlock) := by
  obtain ⟨cv, vr, rp, mp, ra, mb⟩ := env
  cases cv
  · exact Or.inl rfl
  rcases vr with - | vbe
  · exact Or.inl rfl
  by_cases herr :
      (if (vbe.vbeInterfaceSeg <<< 4) + vbe.vbeInterfaceOff > 0xc000 then
        (if rp then !mp else true) else false) = true
  · refine Or.inl ?_
    simp only [make_guest_screen_info]
    rw [if_pos herr]
  · have hnopm : ¬ ((vbe.vbeInterfaceSeg <<< 4) + vbe.vbeInterfaceOff > 0xc000 ∧
        (rp = false ∨ mp = false)) := by
      rintro ⟨h1, h2⟩
      rw [if_pos h1] at herr
      rcases h2 with h2 | h2 <;> subst h2 <;> simp at herr
    rcases ra with - | base
    · refine Or.inl ?_
      simp only [make_guest_screen_info]
      rw [if_neg herr]
    cases mb
    · refine Or.inl ?_
      simp only [make_guest_screen_info]
      rw [if_neg herr]
      simp
    by_cases hbase : base = 0
    · refine Or.inl ?_
      simp only [make_guest_screen_info]
      rw [if_neg herr]
      simp [hbase]
    · refine Or.inr ⟨vbe, base, rfl, rfl, rfl, rfl, hbase, hnopm, ?_⟩
      simp only [make_guest_screen_info]
      rw [if_neg herr]
      simp [hbase]

/-- C4.  Starting from a zeroed screen-info block (its state at the call
site, after the memset of line 209), the block after
`make_guest_screen_info` is either fully populated from the VBE mode
information or all zero — never partially populated — and it is all zero
whenever VESA support is not configured, the extended-bootinfo query
fails, the protected-mode interface reservation or mapping fails, or the
framebuffer reservation or mapping fails. -/
theorem make_guest_screen_info_all_or_nothing (env : screen_env) (info : screen_info)
    (hinfo : info = zero_screen_info) :
    (make_guest_screen_info env info = zero_screen_info ∨
     ∃ vbe base, env.vbe_result = some vbe ∧ base ≠ 0 ∧
       make_guest_screen_info env info =
         populate_screen_info zero_screen_info vbe base
           (vmm_plat_vesa_fbuffer_size vbe.vbeModeInfoBlock)) ∧
    (env.config_vesa = false → make_guest_screen_info env info = zero_screen_info) ∧
    (env.vbe_result = none → make_guest_screen_info env info = zero_screen_info) ∧
    (∀ vbe, env.vbe_result = some vbe →
      (vbe.vbeInterfaceSeg <<< 4) + vbe.vbeInterfaceOff > 0xc000 →
      env.reserve_pm_ok = false →
      make_guest_screen_info env info = zero_screen_info) ∧
    (∀ vbe, env.vbe_result = some vbe →
      (vbe.vbeInterfaceSeg <<< 4) + vbe.vbeInterfaceOff > 0xc000 →
      env.map_pm_ok = false →
      make_guest_screen_info env info = zero_screen_info) ∧
    (env.reserve_anon = none → make_guest_screen_info env info = zero_screen_info) ∧
    (env.map_base_ok = false → make_guest_screen_info env info = zero_screen_info) := by
  subst hinfo
  have hch := make_guest_screen_info_char env zero_screen_info
  refine ⟨?_, ?_, ?_, ?_, ?_, ?_, ?_⟩
  · rcases hch with h | ⟨vbe, base, h1, h2, h3, h4, h5, h6, h7⟩
    · exact Or.inl h
    · exact Or.inr ⟨vbe, base, h2, h5, h7⟩
  · intro h
    rcases hch with hz | ⟨vbe, base, h1, h2, h3, h4, h5, h6, h7⟩
    · exact hz
    · rw [h] at h1
      exact Bool.noConfusion h1
  · intro h
    rcases hch with hz | ⟨vbe, base, h1, h2, h3, h4, h5, h6, h7⟩
    · exact hz
    · rw [h] at h2
      exact Option.noConfusion h2
  · intro vbe' hv hpm hrp
    rcases hch with hz | ⟨vbe, base, h1, h2, h3, h4, h5, h6, h7⟩
    · exact hz
    · rw [hv] at h2
      injection h2 with h2
      subst h2
      exact absurd ⟨hpm, Or.inl hrp⟩ h6
  · intro vbe' hv hpm hmp
    rcases hch with hz | ⟨vbe, base, h1, h2, h3, h4, h5, h6, h7⟩
    · exact hz
    · rw [hv] at h2
      injection h2 with h2
      subst h2
      exact absurd ⟨hpm, Or.inr hmp⟩ h6
  · intro h
    rcases hch with hz | ⟨vbe, base, h1, h2, h3, h4, h5, h6, h7⟩
    · exact hz
    · rw [h] at h3
      exact Option.noConfusion h3
  · intro h
    rcases hch with hz | ⟨vbe, base, h1, h2, h3, h4, h5, h6, h7⟩
    · exact hz
    · rw [h] at h4
      exact Bool.noConfusion h4

/-- Witness for C4 at a concrete environment: with VESA support not
configured and every collaborator call failing, the block is all zero. -/
theorem make_guest_screen_info_all_or_nothing_witness :
    make_guest_screen_info ⟨false, none, false, false, none, false⟩ zero_screen_info =
      zero_screen_info :=
  (make_guest_screen_info_all_or_nothing ⟨false, none, false, false, none, false⟩
    zero_screen_info rfl).2.1 rfl

-- Boot parameters construction (make_guest_boot_info, guest_boot_init.c
-- lines 195-245).

/-- The fields of the Linux-boot-protocol `setup_header` assigned by
`make_guest_boot_info`, plus representative fields it never assigns
(`setup_sects`, `root_flags`, `vid_mode`, `ext_loader_ver`,
`initrd_addr_max`).  The 32-bit header fields store their values reduced
modulo 2^32 (implicit conversion from `uintptr_t`/`size_t`). -/
structure setup_header where
  setup_sects : Nat
  root_flags : Nat
  vid_mode : Nat
  ext_loader_ver : Nat
  initrd_addr_max : Nat
  header : Nat
  boot_flag : Nat
  type_of_loader : Nat
  code32_start : Nat
  kernel_alignment : Nat
  relocatable_kernel : Nat
  cmd_line_ptr : Nat
  cmdline_size : Nat
  ramdisk_image : Nat
  ramdisk_size : Nat
  root_dev : Nat
  version : Nat
deriving DecidableEq, Repr

/-- The parts of `struct boot_params` the code writes: the setup header,
the screen-info block, the E820 map with its entry count, and `alt_mem_k`. -/
structure boot_params where
  hdr : setup_header
  screen_info : screen_info
  e820_entries : Nat
  e820_map : List e820entry
  alt_mem_k : Nat
deriving DecidableEq, Repr

/-- The all-zero `setup_header`. -/
def zero_setup_header : setup_header :=
  ⟨0, 0, 0, 0, 0, 0, 0, 0, 0, 0, 0, 0, 0, 0, 0, 0, 0⟩

/-- The all-zero `struct boot_params` produced by
`memset(&boot_info, 0, sizeof(struct boot_params))` (line 209). -/
def zero_boot_params : boot_params :=
  ⟨zero_setup_header, zero_screen_info, 0, [], 0⟩

/-- The local `struct boot_params` populated by `make_guest_boot_info`
(lines 208-243) before it is copied to guest memory, given the outcomes of
the screen-info collaborator calls and the guest RAM region list. -/
def make_guest_boot_info_params (screen : screen_env) (regions : List vm_ram_region)
    (guest_cmd_addr guest_cmd_len guest_kernel_load_addr guest_kernel_alignment
     guest_ramdisk_load_addr guest_ramdisk_size : Nat) : boot_params :=
  -- memset (line 209)
  let bi0 := zero_boot_params
  -- basic bootinfo structure (lines 212-217)
  let bi1 := { bi0 with hdr := { bi0.hdr with
    header := 0x53726448
    boot_flag := 0xAA55
    type_of_loader := 0xFF
    code32_start := guest_kernel_load_addr % 2 ^ 32
    kernel_alignment := guest_kernel_alignment % 2 ^ 32
    relocatable_kernel := 1 } }
  -- screen information (line 221)
  let bi2 := { bi1 with screen_info := make_guest_screen_info screen bi1.screen_info }
  -- e820 memory map (line 224); the C return value is the entry count
  let bi3 := { bi2 with
    e820_map := make_guest_e820_map regions
    e820_entries := (make_guest_e820_map regions).length }
  -- command line and alt_mem_k (lines 227-233)
  let bi4 := { bi3 with
    hdr := { bi3.hdr with
      cmd_line_ptr := guest_cmd_addr % 2 ^ 32
      cmdline_size := guest_cmd_len % 2 ^ 32 }
    alt_mem_k := 0 }
  -- initramfs (lines 236-243)
  if guest_ramdisk_load_addr ≠ 0 then
    { bi4 with hdr := { bi4.hdr with
      ramdisk_image := guest_ramdisk_load_addr % 2 ^ 32
      ramdisk_size := guest_ramdisk_size % 2 ^ 32
      root_dev := 0x0100
      version := 0x0204 } }
  else
    { bi4 with hdr := { bi4.hdr with version := 0x0202 } }

/-- C6.  The header version of the boot-parameters structure written by
`make_guest_boot_info` is 0x0204 when the supplied ramdisk load address is
non-zero — in which case the ramdisk image pointer, ramdisk size, and the
root-device placeholder 0x0100 are also set — and 0x0202 when the ramdisk
load address is zero. -/
theorem make_guest_boot_info_version (screen : screen_env) (regions : List vm_ram_region)
    (cmd_addr cmd_len kload kalign rd_addr rd_size : Nat) :
    (rd_addr ≠ 0 →
      (make_guest_boot_info_params screen regions cmd_addr cmd_len kload kalign
          rd_addr rd_size).hdr.version = 0x0204 ∧
      (make_guest_boot_info_params screen regions cmd_addr cmd_len kload kalign
          rd_addr rd_size).hdr.ramdisk_image = rd_addr % 2 ^ 32 ∧
      (make_guest_boot_info_params screen regions cmd_addr cmd_len kload kalign
          rd_addr rd_size).hdr.ramdisk_size = rd_size % 2 ^ 32 ∧
      (make_guest_boot_info_params screen regions cmd_addr cmd_len kload kalign
          rd_addr rd_size).hdr.root_dev = 0x0100) ∧
    (rd_addr = 0 →
      (make_guest_boot_info_params screen regions cmd_addr cmd_len kload kalign
          rd_addr rd_size).hdr.version = 0x0202) := by
  by_cases h : rd_addr = 0
  · subst h
    exact ⟨fun hc => absurd rfl hc, fun _ => rfl⟩
  · refine ⟨fun _ => ?_, fun hc => absurd hc h⟩
    simp [make_guest_boot_info_params, h]

/-- Witness for C6 at concrete inputs: ramdisk address 0x9000 gives header
version 0x0204, ramdisk address 0 gives 0x0202. -/
theorem make_guest_boot_info_version_witness :
    (make_guest_boot_info_params ⟨false, none, false, false, none, false⟩
        [⟨0x100000, 0x100000⟩] 0x2000 13 0x400000 0x1000 0x9000 0x100).hdr.version
      = 0x0204 ∧
    (make_guest_boot_info_params ⟨false, none, false, false, none, false⟩
        [⟨0x100000, 0x100000⟩] 0x2000 13 0x400000 0x1000 0 0).hdr.version = 0x0202 :=
  ⟨((make_guest_boot_info_version ⟨false, none, false, false, none, false⟩
      [⟨0x100000, 0x100000⟩] 0x2000 13 0x400000 0x1000 0x9000 0x100).1
      (by decide)).1,
   (make_guest_boot_info_version ⟨false, none, false, false, none, false⟩
      [⟨0x100000, 0x100000⟩] 0x2000 13 0x400000 0x1000 0 0).2 rfl⟩

/-- C9.  `make_guest_boot_info` zero-fills the whole local boot_params
structure before populating it, so every field it does not explicitly
assign — `setup_sects`, `root_flags`, `vid_mode`, `ext_loader_ver`,
`initrd_addr_max`, and `alt_mem_k` (explicitly set to 0) — is zero in the
structure copied to guest memory, and with no ramdisk the ramdisk fields
and root device stay zero as well. -/
theorem make_guest_boot_info_zero_fill (screen : screen_env)
    (regions : List vm_ram_region)
    (cmd_addr cmd_len kload kalign rd_addr rd_size : Nat) :
    (make_guest_boot_info_params screen regions cmd_addr cmd_len kload kalign
        rd_addr rd_size).hdr.setup_sects = 0 ∧
    (make_guest_boot_info_params screen regions cmd_addr cmd_len kload kalign
        rd_addr rd_size).hdr.root_flags = 0 ∧
    (make_guest_boot_info_params screen regions cmd_addr cmd_len kload kalign
        rd_addr rd_size).hdr.vid_mode = 0 ∧
    (make_guest_boot_info_params screen regions cmd_addr cmd_len kload kalign
        rd_addr rd_size).hdr.ext_loader_ver = 0 ∧
    (make_guest_boot_info_params screen regions cmd_addr cmd_len kload kalign
        rd_addr rd_size).hdr.initrd_addr_max = 0 ∧
    (make_guest_boot_info_params screen regions cmd_addr cmd_len kload kalign
        rd_addr rd_size).alt_mem_k = 0 ∧
    (rd_addr = 0 →
      (make_guest_boot_info_params screen regions cmd_addr cmd_len kload kalign
          rd_addr rd_size).hdr.ramdisk_image = 0 ∧
      (make_guest_boot_info_params screen regions cmd_addr cmd_len kload kalign
          rd_addr rd_size).hdr.ramdisk_size = 0 ∧
      (make_guest_boot_info_params screen regions cmd_addr cmd_len kload kalign
          rd_addr rd_size).hdr.root_dev = 0) := by
  by_cases h : rd_addr = 0
  · subst h
    exact ⟨rfl, rfl, rfl, rfl, rfl, rfl, fun _ => ⟨rfl, rfl, rfl⟩⟩
  · refine ⟨?_, ?_, ?_, ?_, ?_, ?_, fun hc => absurd hc h⟩ <;>
      simp [make_guest_boot_info_params, zero_boot_params, zero_setup_header, h]

/-- Witness for C9 at concrete inputs with no ramdisk: the never-assigned
header fields and the ramdisk fields are all zero. -/
theorem make_guest_boot_info_zero_fill_witness :
    (make_guest_boot_info_params ⟨false, none, false, false, none, false⟩
        [⟨0x100000, 0x100000⟩] 0x2000 13 0x400000 0x1000 0 0).hdr.setup_sects = 0 ∧
    (make_guest_boot_info_params ⟨false, none, false, false, none, false⟩
        [⟨0x100000, 0x100000⟩] 0x2000 13 0x400000 0x1000 0 0).hdr.ramdisk_image = 0 :=
  ⟨(make_guest_boot_info_zero_fill ⟨false, none, false, false, none, false⟩
      [⟨0x100000, 0x100000⟩] 0x2000 13 0x400000 0x1000 0 0).1,
   ((make_guest_boot_info_zero_fill ⟨false, none, false, false, none, false⟩
      [⟨0x100000, 0x100000⟩] 0x2000 13 0x400000 0x1000 0 0).2.2.2.2.2.2 rfl).1⟩

-- Guest boot structure construction
-- (vmm_plat_init_guest_boot_structure, guest_boot_init.c lines 248-265).

/-- Failure causes inside the boot-structure construction.  In the C code
each is a non-zero return value caught by an `assert(!err)` in
`vmm_plat_init_guest_boot_structure`, which aborts construction. -/
inductive boot_error where
  | alloc_error   -- vm_ram_allocate returned address 0
  | touch_error   -- vm_ram_touch returned non-zero
  | acpi_error    -- make_guest_acpi_tables returned non-zero
deriving DecidableEq, Repr

/-- Outcomes of the external collaborator calls made during boot-structure
construction. -/
structure boot_build_env where
  cmd_alloc : Nat        -- vm_ram_allocate(len + 1) result (line 69)
  cmd_touch_ok : Bool    -- vm_ram_touch of the command line succeeded (line 77)
  boot_alloc : Nat       -- vm_ram_allocate(sizeof(struct boot_params)) result (line 199)
  boot_touch_ok : Bool   -- vm_ram_touch copying boot_params succeeded (line 244)
  acpi_ok : Bool         -- make_guest_acpi_tables returned 0 (line 263)
  screen : screen_env
  regions : List vm_ram_region
deriving DecidableEq, Repr

/-- Effects of boot-structure construction that are visible afterwards:
the boot-info address recorded on the VM (line 205), the boot-parameters
structure copied into guest memory (line 244), and whether the ACPI-table
step ran (line 263). -/
structure boot_build_effects where
  boot_info_addr : Option Nat
  boot_params_written : Option boot_params
  acpi_ran : Bool
deriving DecidableEq, Repr

/-- `make_guest_cmd_line` (guest_boot_init.c lines 66-78): allocates
`strlen(cmdline) + 1` bytes of guest RAM, failing with -1 when the
allocator returns address 0, then records the address and length
(excluding the NUL) and copies the string via `vm_ram_touch`. -/
def make_guest_cmd_line (cmd_alloc : Nat) (cmd_touch_ok : Bool) (cmdline_len : Nat) :
    Except boot_error (Nat × Nat) :=
  if cmd_alloc = 0 then Except.error boot_error.alloc_error
  else if cmd_touch_ok then Except.ok (cmd_alloc, cmdline_len)
  else Except.error boot_error.touch_error

/-- `make_guest_boot_info` (lines 195-245): allocates guest RAM for the
boot-parameters structure (failing with -1 on address 0), records the
address on the VM, populates the structure locally and copies it out in
one `vm_ram_touch`. -/
def make_guest_boot_info (env : boot_build_env)
    (cmd_addr cmd_len kload kalign rd_addr rd_size : Nat) :
    Except boot_error (Nat × boot_params) :=
  if env.boot_alloc = 0 then Except.error boot_error.alloc_error
  else
    let bp := make_guest_boot_info_params env.screen env.regions cmd_addr cmd_len
      kload kalign rd_addr rd_size
    if env.boot_touch_ok then Except.ok (env.boot_alloc, bp)
    else Except.error boot_error.touch_error

/-- `vmm_plat_init_guest_boot_structure` (lines 248-265): command line,
then boot info, then ACPI tables, each followed by `assert(!err)` —
modelled as stopping with that step's error.  The returned effects record
what ran before the stop. -/
def vmm_plat_init_guest_boot_structure (env : boot_build_env)
    (cmdline_len kload kalign rd_addr rd_size : Nat) :
    Option boot_error × boot_build_effects :=
  match make_guest_cmd_line env.cmd_alloc env.cmd_touch_ok cmdline_len with
  | Except.error e => (some e, ⟨none, none, false⟩)
  | Except.ok (cmd_addr, cmd_len) =>
    -- line 205 records the address as soon as the allocation succeeds
    let addr_effect : Option Nat := if env.boot_alloc = 0 then none else some env.boot_alloc
    match make_guest_boot_info env cmd_addr cmd_len kload kalign rd_addr rd_size with
    | Except.error e => (some e, ⟨addr_effect, none, false⟩)
    | Except.ok (addr, bp) =>
      if env.acpi_ok then (none, ⟨some addr, some bp, true⟩)
      else (some boot_error.acpi_error, ⟨some addr, some bp, true⟩)

/-- C7.  When the guest-memory allocator returns address zero for the
command-line allocation, boot-structure construction stops with an
allocation error: no boot-info address is recorded, no boot-parameters
structure is written, and the ACPI-table step never runs. -/
theorem vmm_plat_init_cmd_alloc_fail (env : boot_build_env)
    (cmdline_len kload kalign rd_addr rd_size : Nat)
    (h : env.cmd_alloc = 0) :
    (vmm_plat_init_guest_boot_structure env cmdline_len kload kalign rd_addr rd_size).1
      = some boot_error.alloc_error ∧
    (vmm_plat_init_guest_boot_structure env cmdline_len kload kalign rd_addr
      rd_size).2.boot_info_addr = none ∧
    (vmm_plat_init_guest_boot_structure env cmdline_len kload kalign rd_addr
      rd_size).2.boot_params_written = none ∧
    (vmm_plat_init_guest_boot_structure env cmdline_len kload kalign rd_addr
      rd_size).2.acpi_ran = false := by
  simp [vmm_plat_init_guest_boot_structure, make_guest_cmd_line, h]

/-- Witness for C7: a concrete environment whose command-line allocation
returns 0 yields the allocation error with no later step run. -/
theorem vmm_plat_init_cmd_alloc_fail_witness :
    (vmm_plat_init_guest_boot_structure
      ⟨0, true, 0x8000, true, true, ⟨false, none, false, false, none, false⟩,
       [⟨0x100000, 0x100000⟩]⟩ 13 0x400000 0x1000 0 0).1
      = some boot_error.alloc_error ∧
    (vmm_plat_init_guest_boot_structure
      ⟨0, true, 0x8000, true, true, ⟨false, none, false, false, none, false⟩,
       [⟨0x100000, 0x100000⟩]⟩ 13 0x400000 0x1000 0 0).2.acpi_ran = false :=
  ⟨(vmm_plat_init_cmd_alloc_fail _ 13 0x400000 0x1000 0 0 rfl).1,
   (vmm_plat_init_cmd_alloc_fail _ 13 0x400000 0x1000 0 0 rfl).2.2.2⟩

-- Guest vCPU entry state (vmm_init_guest_thread_state, guest_boot_init.c
-- lines 267-278).

/-- The vCPU state touched by `vmm_init_guest_thread_state`: the thread
context registers EAX, EBX, ECX, EDX, ESI, the VMCS guest-RIP field, and
the boot-info address stored on the vCPU's VM
(`vcpu->vm->arch.guest_boot_info.boot_info`). -/
structure vm_vcpu where
  eax : Nat
  ebx : Nat
  ecx : Nat
  edx : Nat
  esi : Nat
  vmcs_guest_rip : Nat
  vm_boot_info : Nat
deriving DecidableEq, Repr

/-- `vmm_init_guest_thread_state` (lines 267-278): zero EAX/EBX/ECX/EDX,
set the VMCS guest RIP to `(unsigned int) guest_entry_addr` — a 32-bit
truncation — and set ESI to the recorded boot-parameters address. -/
def vmm_init_guest_thread_state (vcpu : vm_vcpu) (guest_entry_addr : Nat) : vm_vcpu :=
  { vcpu with
    eax := 0
    ebx := 0
    ecx := 0
    edx := 0
    vmcs_guest_rip := guest_entry_addr % 2 ^ 32
    esi := vcpu.vm_boot_info }

/-- Counterexample to C8 as stated: at entry address 2^32 the value written
to VMX_GUEST_RIP is 0, not the given entry address — the
`(unsigned int)` cast at line 275 truncates to 32 bits. -/
theorem vmm_init_guest_thread_state_rip_cex :
    (vmm_init_guest_thread_state ⟨7, 7, 7, 7, 7, 7, 0x9000⟩ (2 ^ 32)).vmcs_guest_rip = 0 ∧
    (vmm_init_guest_thread_state ⟨7, 7, 7, 7, 7, 7, 0x9000⟩ (2 ^ 32)).vmcs_guest_rip
      ≠ 2 ^ 32 := by
  exact ⟨by decide, by decide⟩

/-- C8 (amended).  For every vCPU and entry address,
`vmm_init_guest_thread_state` zeroes EAX, EBX, ECX and EDX, writes the
entry address truncated to 32 bits (the address itself whenever it is
below 2^32) to the guest-RIP VMCS field, and sets ESI to the
boot-parameters address recorded on the VM. -/
theorem vmm_init_guest_thread_state_regs (vcpu : vm_vcpu) (guest_entry_addr : Nat) :
    (vmm_init_guest_thread_state vcpu guest_entry_addr).eax = 0 ∧
    (vmm_init_guest_thread_state vcpu guest_entry_addr).ebx = 0 ∧
    (vmm_init_guest_thread_state vcpu guest_entry_addr).ecx = 0 ∧
    (vmm_init_guest_thread_state vcpu guest_entry_addr).edx = 0 ∧
    (vmm_init_guest_thread_state vcpu guest_entry_addr).vmcs_guest_rip
      = guest_entry_addr % 2 ^ 32 ∧
    (vmm_init_guest_thread_state vcpu guest_entry_addr).esi = vcpu.vm_boot_info :=
  ⟨rfl, rfl, rfl, rfl, rfl, rfl⟩

/-- C10.  `vmm_init_guest_thread_state` writes to the VMX_GUEST_RIP field
exactly the entry address reduced modulo 2^32. -/
theorem vmm_init_guest_thread_state_rip_truncate (vcpu : vm_vcpu)
    (guest_entry_addr : Nat) :
    (vmm_init_guest_thread_state vcpu guest_entry_addr).vmcs_guest_rip
      = guest_entry_addr % 2 ^ 32 :=
  rfl

-- I/O port dispatcher.  The types below are from
-- include/sel4vmmplatsupport/ioports.h; the function bodies are not part
-- of src/, so the operations are modelled from the spec (sections 4.2 and 8).

/-- `ioport_range_t`: an inclusive range of 16-bit port numbers.  The C
field `end` is a reserved word in Lean and is embedded as `end_`. -/
structure ioport_range where
  start : Nat
  end_ : Nat
deriving DecidableEq, Repr

/-- `ioport_interface_t`: the in/out handler callbacks with their cookie
already applied.  `port_in` returns the value read on success and `none`
on handler failure (non-zero C return); `port_out` returns whether the
handler succeeded. -/
structure ioport_interface where
  port_in : Nat → Nat → Option Nat
  port_out : Nat → Nat → Nat → Bool
  desc : String

/-- `ioport_type_t` (only `IOPORT_EMULATED` exists). -/
inductive ioport_type where
  | emulated
deriving DecidableEq, Repr

/-- `ioport_entry_t`: a port range with its handler interface. -/
structure ioport_entry where
  range : ioport_range
  interface : ioport_interface
  ioport_type : ioport_type

/-- `vmm_io_port_list_t`: the table of registered port ranges, kept sorted
by range start; `num_ioports` is the list length. -/
structure vmm_io_port_list where
  ioports : List ioport_entry

/-- Errors of port registration named by the spec (section 4.2):
InvalidRangeError and OverlapError. -/
inductive ioport_error where
  | invalid_range
  | overlap
deriving DecidableEq, Repr

/-- Port `p` lies inside the inclusive range `r`. -/
def ioport_contains (r : ioport_range) (p : Nat) : Prop :=
  r.start ≤ p ∧ p ≤ r.end_

instance (r : ioport_range) (p : Nat) : Decidable (ioport_contains r p) :=
  inferInstanceAs (Decidable (And _ _))

/-- Two inclusive ranges intersect. -/
def ioport_range_overlap (a b : ioport_range) : Bool :=
  decide (a.start ≤ b.end_) && decide (b.start ≤ a.end_)

/-- Insertion into the table preserving sort order by range start. -/
def ioport_insert (e : ioport_entry) : List ioport_entry → List ioport_entry
  | [] => [e]
  | x :: xs =>
    if e.range.start ≤ x.range.start then e :: x :: xs else x :: ioport_insert e xs

/-- Modelled from the spec: the body of `vmm_io_port_init` is not under
src/ (only its declaration in ioports.h); spec section 4.2 — `init()`
returns an empty table. -/
def vmm_io_port_init : vmm_io_port_list := ⟨[]⟩

/-- Modelled from the spec: the body of `vmm_io_port_add_handler` is not
under src/ (only its declaration in ioports.h); spec section 4.2 —
validate `start <= end` (InvalidRangeError otherwise), fail with
OverlapError when the new range intersects any existing entry leaving the
table unchanged, else insert maintaining sort order by start. -/
def vmm_io_port_add_handler (io_list : vmm_io_port_list) (r : ioport_range)
    (iface : ioport_interface) : Option ioport_error × vmm_io_port_list :=
  if ¬ (r.start ≤ r.end_) then (some ioport_error.invalid_range, io_list)
  else if io_list.ioports.any (fun e => ioport_range_overlap e.range r) then
    (some ioport_error.overlap, io_list)
  else (none, ⟨ioport_insert ⟨r, iface, ioport_type.emulated⟩ io_list.ioports⟩)

/-- Modelled from the spec: the lookup step of `emulate_io_handler` (body
not under src/); spec section 4.2 — find the entry whose range contains
the accessed port. -/
def ioport_lookup (l : List ioport_entry) (port_no : Nat) : Option ioport_entry :=
  l.find? (fun e => decide (e.range.start ≤ port_no) && decide (port_no ≤ e.range.end_))

/-- Modelled from the spec: the body of `emulate_io_handler` is not under
src/ (only its declaration and contract in ioports.h); header comment and
spec section 4.2 — return 0 if handled, 1 if unhandled, -1 for error; no
containing entry leaves the data untouched and is unhandled; an io-in
invokes the entry's `port_in` and stores its result into the data on
success; an io-out invokes `port_out` on the data value. -/
def emulate_io_handler (io_port : vmm_io_port_list) (port_no : Nat) (is_in : Bool)
    (size : Nat) (data : Nat) : Int × Nat :=
  match ioport_lookup io_port.ioports port_no with
  | none => (1, data)
  | some e =>
    if is_in then
      match e.interface.port_in port_no size with
      | some v => (0, v)
      | none => (-1, data)
    else
      if e.interface.port_out port_no size data then (0, data) else (-1, data)

/-- C2.  Whenever the new inclusive port range intersects the range of an
entry already in the table (some port lies in both), registration fails
with the overlap error and the table is unchanged. -/
theorem vmm_io_port_add_handler_overlap (l : vmm_io_port_list) (r : ioport_range)
    (iface : ioport_interface)
    (h : ∃ e ∈ l.ioports, ∃ p, ioport_contains e.range p ∧ ioport_contains r p) :
    (vmm_io_port_add_handler l r iface).1 = some ioport_error.overlap ∧
    (vmm_io_port_add_handler l r iface).2 = l := by
  obtain ⟨e, he, p, ⟨h1, h2⟩, h3, h4⟩ := h
  have hwf : r.start ≤ r.end_ := le_trans h3 h4
  have hov : l.ioports.any (fun x => ioport_range_overlap x.range r) = true := by
    rw [List.any_eq_true]
    refine ⟨e, he, ?_⟩
    simp only [ioport_range_overlap, Bool.and_eq_true, decide_eq_true_eq]
    omega
  unfold vmm_io_port_add_handler
  rw [if_neg (not_not_intro hwf), if_pos hov]
  exact ⟨rfl, rfl⟩

/-- A trivial handler interface used in the concrete witnesses: reads
return 0 and writes always succeed. -/
def sample_interface : ioport_interface :=
  ⟨fun _ _ => some 0, fun _ _ _ => true, "sample device"⟩

/-- The table holding exactly the single registered range [0x60, 0x64]. -/
def keyboard_table : vmm_io_port_list :=
  ⟨[⟨⟨0x60, 0x64⟩, sample_interface, ioport_type.emulated⟩]⟩

/-- Witness for C2: registering [0x60, 0x64] in an empty table succeeds;
then attempting [0x62, 0x66] fails with the overlap error and the table
still contains only the first range. -/
theorem vmm_io_port_add_handler_overlap_witness :
    (vmm_io_port_add_handler vmm_io_port_init ⟨0x60, 0x64⟩ sample_interface).1 = none ∧
    (vmm_io_port_add_handler vmm_io_port_init ⟨0x60, 0x64⟩ sample_interface).2
      = keyboard_table ∧
    (vmm_io_port_add_handler keyboard_table ⟨0x62, 0x66⟩ sample_interface).1
      = some ioport_error.overlap ∧
    (vmm_io_port_add_handler keyboard_table ⟨0x62, 0x66⟩ sample_interface).2
      = keyboard_table :=
  ⟨rfl, rfl,
   (vmm_io_port_add_handler_overlap keyboard_table ⟨0x62, 0x66⟩ sample_interface
     ⟨⟨⟨0x60, 0x64⟩, sample_interface, ioport_type.emulated⟩, List.mem_singleton.mpr rfl,
      0x62, ⟨by norm_num, by norm_num⟩, le_rfl, by norm_num⟩).1,
   (vmm_io_port_add_handler_overlap keyboard_table ⟨0x62, 0x66⟩ sample_interface
     ⟨⟨⟨0x60, 0x64⟩, sample_interface, ioport_type.emulated⟩, List.mem_singleton.mpr rfl,
      0x62, ⟨by norm_num, by norm_num⟩, le_rfl, by norm_num⟩).2⟩

/-- C3.  For every table, port, direction, size and data value, dispatch
returns exactly one of 0 (handled), 1 (unhandled) or -1 (error); when no
registered range contains the port the result is unhandled with the data
unchanged; when the lookup finds a containing entry, an io-in invokes its
`port_in` handler (storing the result in the data on success) and an
io-out invokes its `port_out` handler on the data, returning handled on
handler success and error on handler failure; and a containing entry is
found whenever one exists. -/
theorem emulate_io_handler_spec (l : vmm_io_port_list) (port_no : Nat) (is_in : Bool)
    (size data : Nat) :
    ((emulate_io_handler l port_no is_in size data).1 = 0 ∨
     (emulate_io_handler l port_no is_in size data).1 = 1 ∨
     (emulate_io_handler l port_no is_in size data).1 = -1) ∧
    ((∀ e ∈ l.ioports, ¬ ioport_contains e.range port_no) →
      (emulate_io_handler l port_no is_in size data).1 = 1 ∧
      (emulate_io_handler l port_no is_in size data).2 = data) ∧
    (∀ e, ioport_lookup l.ioports port_no = some e →
      (is_in = true →
        ((∃ v, e.interface.port_in port_no size = some v ∧
            emulate_io_handler l port_no is_in size data = (0, v)) ∨
         (e.interface.port_in port_no size = none ∧
            emulate_io_handler l port_no is_in size data = (-1, data)))) ∧
      (is_in = false →
        ((e.interface.port_out port_no size data = true ∧
            emulate_io_handler l port_no is_in size data = (0, data)) ∨
         (e.interface.port_out port_no size data = false ∧
            emulate_io_handler l port_no is_in size data = (-1, data))))) ∧
    ((∃ e ∈ l.ioports, ioport_contains e.range port_no) →
      ∃ e, ioport_lookup l.ioports port_no = some e ∧
        ioport_contains e.range port_no) := by
  refine ⟨?_, ?_, ?_, ?_⟩
  · unfold emulate_io_handler
    cases h : ioport_lookup l.ioports port_no with
    | none => simp
    | some e =>
      cases is_in with
      | false => cases hpo : e.interface.port_out port_no size data <;> simp [hpo]
      | true => cases hpi : e.interface.port_in port_no size <;> simp [hpi]
  · intro h
    have hl : ioport_lookup l.ioports port_no = none := by
      rw [ioport_lookup, List.find?_eq_none]
      intro e he
      simp only [Bool.and_eq_true, decide_eq_true_eq, not_and]
      intro h1 h2
      exact h e he ⟨h1, h2⟩
    unfold emulate_io_handler
    rw [hl]
    exact ⟨rfl, rfl⟩
  · intro e he
    constructor
    · intro hin
      subst hin
      unfold emulate_io_handler
      rw [he]
      cases hpi : e.interface.port_in port_no size with
      | none => exact Or.inr ⟨rfl, by simp [hpi]⟩
      | some v => exact Or.inl ⟨v, rfl, by simp [hpi]⟩
    · intro hin
      subst hin
      unfold emulate_io_handler
      rw [he]
      cases hpo : e.interface.port_out port_no size data with
      | false => exact Or.inr ⟨rfl, by simp [hpo]⟩
      | true => exact Or.inl ⟨rfl, by simp [hpo]⟩
  · intro h
    obtain ⟨e, he, h1, h2⟩ := h
    have hsome : (ioport_lookup l.ioports port_no).isSome := by
      rw [ioport_lookup, List.find?_isSome]
      exact ⟨e, he, by simp only [Bool.and_eq_true, decide_eq_true_eq]; exact ⟨h1, h2⟩⟩
    obtain ⟨f, hf⟩ := Option.isSome_iff_exists.mp hsome
    have hpf := List.find?_some hf
    simp only [Bool.and_eq_true, decide_eq_true_eq] at hpf
    exact ⟨f, hf, hpf⟩

/-- Witness for C3: with only [0x60, 0x64] registered, port 0x65 is
unhandled and the data byte 0xAB is untouched; an io-in at port 0x60
invokes the registered handler and returns handled with its value. -/
theorem emulate_io_handler_spec_witness :
    emulate_io_handler keyboard_table 0x65 true 1 0xAB = (1, 0xAB) ∧
    emulate_io_handler keyboard_table 0x60 true 1 0 = (0, 0) := by
  constructor
  · have h := (emulate_io_handler_spec keyboard_table 0x65 true 1 0xAB).2.1 (by decide)
    exact Prod.ext h.1 h.2
  · have h := ((emulate_io_handler_spec keyboard_table 0x60 true 1 0).2.2.1
      ⟨⟨0x60, 0x64⟩, sample_interface, ioport_type.emulated⟩ rfl).1 rfl
    rcases h with ⟨v, hv, hres⟩ | ⟨hc, -⟩
    · injection hv with hv
      rw [← hv] at hres
      exact hres
    · exact Option.noConfusion hc
